import Mathlib

/-!
Shallow embedding of `src/web/src/components/CommandPalette.tsx`: a global
command palette widget.  Local component state (the `open` flag and the
`hasFetchedMemos` flag), the keyboard handler, the fetch effect, the three
selection handlers and the rendered option list are translated into Lean
definitions; the event loop of the component is an explicit step function on
a state record, emitting the observable side effects (fetch requests,
navigation calls, filter additions) as traces.
-/

namespace CommandPalette

/-- The memo `State` enum from the proto types (`@/types/proto/api/v1/common`);
the component only uses `State.NORMAL`. -/
inductive State where
  | STATE_UNSPECIFIED
  | NORMAL
  | ARCHIVED
deriving DecidableEq

/-- A memo as the palette reads it from `memoStore.state.memos`: its resource
identifier `name` and its text `content`. -/
structure Memo where
  name : String
  content : String
deriving DecidableEq

/-- The argument object of `memoStore.fetchMemos` in the fetch effect. -/
structure FetchParams where
  parent : String
  state : State
  orderBy : String
  pageSize : Nat
deriving DecidableEq

/-- The literal parameters the fetch effect passes to `memoStore.fetchMemos`:
`{ parent: "", state: State.NORMAL, orderBy: "display_time desc", pageSize: 20 }`. -/
def fetchMemosParams : FetchParams :=
  { parent := "", state := State.NORMAL, orderBy := "display_time desc", pageSize := 20 }

/-- A filter as passed to `memoFilterStore.addFilter`. -/
structure MemoFilter where
  factor : String
  value : String
deriving DecidableEq

/-- The `handleKeyDown` listener: `(e.key === "k" || e.key === "K") &&
(e.metaKey || e.ctrlKey)` toggles the `open` flag, `e.key === "Escape"`
clears it, any other key leaves it unchanged.  Returns the new value of the
`open` flag given the previous one. -/
def handleKeyDown (key : String) (metaKey ctrlKey openPrev : Bool) : Bool :=
  if (key = "k" ∨ key = "K") ∧ (metaKey = true ∨ ctrlKey = true) then !openPrev
  else if key = "Escape" then false
  else openPrev

/-- JavaScript `s.split(sep)` for a one-character separator, on char lists:
splitting never drops empty chunks, and splitting the empty string yields
`[""]`. -/
def splitCharsAux (sep : Char) : List Char → List Char → List (List Char)
  | [], acc => [acc.reverse]
  | c :: rest, acc =>
    if c = sep then acc.reverse :: splitCharsAux sep rest []
    else splitCharsAux sep rest (c :: acc)

/-- JavaScript `name.split("/")` (single-character separator). -/
def jsSplit (s : String) (sep : Char) : List String :=
  (splitCharsAux sep s.data []).map String.mk

/-- JavaScript `Array.prototype.pop()` as a pure observation: the last
element, or `none` for the empty array. -/
def jsPop (l : List α) : Option α := l.getLast?

/-- JavaScript `s.slice(0, n)`: the first `n` characters of `s`. -/
def jsSliceTo (s : String) (n : Nat) : String := String.mk (s.data.take n)

/-- The observable effects of one selection handler: navigation calls made
through `navigate`, filters added through `memoFilterStore.addFilter`, and
the values passed to `setOpen`. -/
structure SelectResult where
  navigations : List String
  filters : List MemoFilter
  setOpenCalls : List Bool
deriving DecidableEq

/-- A selection handler that does nothing (the falsy-`uid` branch of
`handleMemoSelect`). -/
def noSelect : SelectResult := ⟨[], [], []⟩

/-- The `handleNavigate` callback: `navigate(path); setOpen(false)`. -/
def handleNavigate (path : String) : SelectResult :=
  { navigations := [path], filters := [], setOpenCalls := [false] }

/-- The `handleMemoSelect` handler: `const uid = name.split("/").pop();
if (uid) handleNavigate("/memos/" + uid)`.  An `undefined` or empty-string
`uid` is falsy, so nothing happens. -/
def handleMemoSelect (name : String) : SelectResult :=
  match jsPop (jsSplit name '/') with
  | some uid => if uid = "" then noSelect else handleNavigate ("/memos/" ++ uid)
  | none => noSelect

/-- The `handleTagSelect` handler: `memoFilterStore.addFilter({ factor:
"tagSearch", value: tag }); setOpen(false)`. -/
def handleTagSelect (tag : String) : SelectResult :=
  { navigations := [], filters := [⟨"tagSearch", tag⟩], setOpenCalls := [false] }

/-- The route table the component imports from `@/router`; the palette only
reads the six path strings used by `staticActions`. -/
structure Routes where
  ROOT : String
  INBOX : String
  ATTACHMENTS : String
  ARCHIVED : String
  SETTING : String
  EXPLORE : String

/-- One entry of `staticActions` (the icon element is presentation-only and
not modelled). -/
structure StaticAction where
  id : String
  label : String
  path : String
deriving DecidableEq

/-- The `staticActions` memo: the six static navigation entries. -/
def staticActions (r : Routes) : List StaticAction :=
  [ ⟨"home", "Home", r.ROOT⟩,
    ⟨"inbox", "Inbox", r.INBOX⟩,
    ⟨"attachments", "Attachments", r.ATTACHMENTS⟩,
    ⟨"archived", "Archived", r.ARCHIVED⟩,
    ⟨"settings", "Settings", r.SETTING⟩,
    ⟨"explore", "Explore", r.EXPLORE⟩ ]

/-- The default comparator of JavaScript `Array.prototype.sort` on strings:
lexicographic comparison of the character sequences. -/
def jsLeChars : List Char → List Char → Bool
  | [], _ => true
  | _ :: _, [] => false
  | a :: as, b :: bs =>
    if a < b then true
    else if b < a then false
    else jsLeChars as bs

/-- Lexicographic order on strings, as JavaScript's default sort compares
them. -/
def jsStringLe (a b : String) : Prop := jsLeChars a.data b.data = true

instance : DecidableRel jsStringLe :=
  fun a b => inferInstanceAs (Decidable (jsLeChars a.data b.data = true))

/-- The `tagItems` value: `Object.keys(userStore.state.tagCount).sort()`,
the keys of the tag-count mapping, in the store's iteration order, sorted
lexicographically.  The mapping is modelled as an association list whose
order is the store's iteration order. -/
def tagItems (tagCount : List (String × Nat)) : List String :=
  List.insertionSort jsStringLe (tagCount.map Prod.fst)

/-- The label of a rendered recent-memo item:
`memo.content.slice(0, 50) || memo.name`. -/
def memoLabel (m : Memo) : String :=
  if jsSliceTo m.content 50 = "" then m.name else jsSliceTo m.content 50

/-- One rendered `CommandItem`: its React `key`, its visible text, and the
effect of its `onSelect` handler. -/
structure PaletteItem where
  key : String
  label : String
  onSelect : SelectResult
deriving DecidableEq

/-- A node of the rendered `CommandList`. -/
inductive PaletteNode where
  | empty (message : String)
  | separator
  | group (heading : String) (items : List PaletteItem)
deriving DecidableEq

/-- The children of `CommandList` in the returned JSX: the empty-state node,
the always-present "Navigate" group, then — only when `memoItems.length > 0` —
a separator and the "Recent Memos" group, then — only when
`tagItems.length > 0` — a separator and the "Tags" group. -/
def renderList (r : Routes) (memoItems : List Memo) (tagCount : List (String × Nat)) :
    List PaletteNode :=
  [ PaletteNode.empty "No results found.",
    PaletteNode.group "Navigate"
      ((staticActions r).map fun a => ⟨a.id, a.label, handleNavigate a.path⟩) ]
  ++ (if memoItems.length > 0 then
        [ PaletteNode.separator,
          PaletteNode.group "Recent Memos"
            (memoItems.map fun m => ⟨m.name, memoLabel m, handleMemoSelect m.name⟩) ]
      else [])
  ++ (if (tagItems tagCount).length > 0 then
        [ PaletteNode.separator,
          PaletteNode.group "Tags"
            ((tagItems tagCount).map fun t => ⟨t, "#" ++ t, handleTagSelect t⟩) ]
      else [])

/-- The group headings appearing in a rendered list. -/
def headings (l : List PaletteNode) : List String :=
  l.filterMap fun n =>
    match n with
    | PaletteNode.group h _ => some h
    | _ => none

/-- Whether a node is a `CommandSeparator`. -/
def PaletteNode.isSeparator : PaletteNode → Bool
  | PaletteNode.separator => true
  | _ => false

/-- The component's state within one mount: the `open` flag (`open` is a Lean
keyword, hence `isOpen`), the `hasFetchedMemos` flag, the number of
`fetchMemos` promises still in flight, and the `memoStore.state.memos`
snapshot the palette reads. -/
structure GState where
  isOpen : Bool
  hasFetchedMemos : Bool
  pending : Nat
  memos : List Memo
deriving DecidableEq

/-- Fresh mount: `useState(false)` twice, no fetch in flight, empty store. -/
def initState : GState := ⟨false, false, 0, []⟩

/-- The side effects one event step emits. -/
structure Effects where
  fetches : List FetchParams
  navigations : List String
  filters : List MemoFilter
deriving DecidableEq

/-- No side effects. -/
def noEffects : Effects := ⟨[], [], []⟩

/-- The events one mount of the component can process: a `keydown` on the
window, the user selecting a rendered item (carrying that item's `onSelect`
effect), and an in-flight `fetchMemos` promise settling — fulfilled with the
fetched memo list (`some`) or rejected (`none`). -/
inductive PaletteEvent where
  | keydown (key : String) (metaKey ctrlKey : Bool)
  | select (r : SelectResult)
  | settle (result : Option (List Memo))

/-- Re-run of the fetch `useEffect` after a render: it runs only when one of
its dependencies `[open, hasFetchedMemos]` changed, and issues
`memoStore.fetchMemos(fetchMemosParams)` when `open && !hasFetchedMemos`. -/
def runFetchEffect (depsChanged : Bool) (s : GState) : GState × List FetchParams :=
  if depsChanged then
    if s.isOpen = true ∧ s.hasFetchedMemos = false then
      ({ s with pending := s.pending + 1 }, [fetchMemosParams])
    else (s, [])
  else (s, [])

/-- The value of the `open` flag after a handler's sequence of `setOpen`
calls. -/
def applySetOpen (openPrev : Bool) : List Bool → Bool
  | [] => openPrev
  | v :: rest => applySetOpen v rest

/-- One event step of the mounted component.  A `keydown` runs
`handleKeyDown` and then the fetch effect (whose dependencies changed exactly
when the `open` flag did).  A `select` applies the item's `onSelect` effect
and then the fetch effect likewise.  A `settle` models the `.finally(() =>
setHasFetchedMemos(true))` continuation of an in-flight `fetchMemos` call: a
fulfilled promise also replaces the memo snapshot, a rejected one leaves it
unchanged, and the effect re-runs only if `hasFetchedMemos` actually
changed. -/
def step (s : GState) : PaletteEvent → GState × Effects
  | PaletteEvent.keydown key m c =>
    let newOpen := handleKeyDown key m c s.isOpen
    let s1 := { s with isOpen := newOpen }
    let out := runFetchEffect (decide (newOpen ≠ s.isOpen)) s1
    (out.1, ⟨out.2, [], []⟩)
  | PaletteEvent.select r =>
    let newOpen := applySetOpen s.isOpen r.setOpenCalls
    let s1 := { s with isOpen := newOpen }
    let out := runFetchEffect (decide (newOpen ≠ s.isOpen)) s1
    (out.1, ⟨out.2, r.navigations, r.filters⟩)
  | PaletteEvent.settle result =>
    if s.pending = 0 then (s, noEffects)
    else
      let memos1 := match result with
        | some l => l
        | none => s.memos
      let s1 : GState :=
        { s with pending := s.pending - 1, hasFetchedMemos := true, memos := memos1 }
      let out := runFetchEffect (decide (s.hasFetchedMemos = false)) s1
      (out.1, ⟨out.2, [], []⟩)

/-- Run a sequence of events from a state, concatenating the emitted
effects. -/
def runFrom (s : GState) : List PaletteEvent → GState × Effects
  | [] => (s, noEffects)
  | ev :: rest =>
    let out := step s ev
    let outRest := runFrom out.1 rest
    (outRest.1,
      ⟨out.2.fetches ++ outRest.2.fetches,
       out.2.navigations ++ outRest.2.navigations,
       out.2.filters ++ outRest.2.filters⟩)

/-- Run a sequence of events on a fresh mount. -/
def run (evs : List PaletteEvent) : GState × Effects := runFrom initState evs

/-- A concrete route table, used to evaluate the model at concrete inputs. -/
def demoRoutes : Routes :=
  ⟨"/", "/inbox", "/attachments", "/archived", "/setting", "/explore"⟩

/-! Properties of the lexicographic comparator. -/

theorem jsLeChars_total (as bs : List Char) :
    jsLeChars as bs = true ∨ jsLeChars bs as = true := by
  induction as generalizing bs with
  | nil => left; rfl
  | cons a as ih =>
    cases bs with
    | nil => right; rfl
    | cons b bs =>
      rcases lt_trichotomy a b with hab | hab | hab
      · left; simp [jsLeChars, hab]
      · subst hab
        rcases ih bs with h | h
        · left; simp [jsLeChars, h]
        · right; simp [jsLeChars, h]
      · right; simp [jsLeChars, hab]

theorem jsLeChars_trans {as bs cs : List Char} (h1 : jsLeChars as bs = true)
    (h2 : jsLeChars bs cs = true) : jsLeChars as cs = true := by
  induction as generalizing bs cs with
  | nil => rfl
  | cons a as ih =>
    cases bs with
    | nil => simp [jsLeChars] at h1
    | cons b bs =>
      cases cs with
      | nil => simp [jsLeChars] at h2
      | cons c cs =>
        rcases lt_trichotomy a b with hab | hab | hab
        · rcases lt_trichotomy b c with hbc | hbc | hbc
          · simp [jsLeChars, lt_trans hab hbc]
          · subst hbc; simp [jsLeChars, hab]
          · simp [jsLeChars, hbc, asymm hbc] at h2
        · subst hab
          simp only [jsLeChars, lt_irrefl, if_false] at h1
          rcases lt_trichotomy a c with hac | hac | hac
          · simp [jsLeChars, hac]
          · subst hac
            simp only [jsLeChars, lt_irrefl, if_false] at h2 ⊢
            exact ih h1 h2
          · simp [jsLeChars, hac, asymm hac] at h2
        · simp [jsLeChars, hab, asymm hab] at h1

theorem jsLeChars_antisymm {as bs : List Char} (h1 : jsLeChars as bs = true)
    (h2 : jsLeChars bs as = true) : as = bs := by
  induction as generalizing bs with
  | nil =>
    cases bs with
    | nil => rfl
    | cons b bs => simp [jsLeChars] at h2
  | cons a as ih =>
    cases bs with
    | nil => simp [jsLeChars] at h1
    | cons b bs =>
      rcases lt_trichotomy a b with hab | hab | hab
      · simp [jsLeChars, hab, asymm hab] at h2
      · subst hab
        simp only [jsLeChars, lt_irrefl, if_false] at h1 h2
        exact congrArg (a :: ·) (ih h1 h2)
      · simp [jsLeChars, hab, asymm hab] at h1

instance : IsTotal String jsStringLe :=
  ⟨fun a b => jsLeChars_total a.data b.data⟩

instance : IsTrans String jsStringLe :=
  ⟨fun _ _ _ h1 h2 => jsLeChars_trans h1 h2⟩

instance : IsAntisymm String jsStringLe := by
  refine ⟨fun a b h1 h2 => ?_⟩
  cases a with
  | mk da =>
    cases b with
    | mk db => exact congrArg String.mk (jsLeChars_antisymm h1 h2)

/-! Properties of the event step. -/

theorem runFetchEffect_fetches (depsChanged : Bool) (s : GState) :
    (runFetchEffect depsChanged s).2 = [] ∨
      (runFetchEffect depsChanged s).2 = [fetchMemosParams] := by
  unfold runFetchEffect
  split
  · split
    · right; rfl
    · left; rfl
  · left; rfl

theorem step_fetches (s : GState) (ev : PaletteEvent) :
    (step s ev).2.fetches = [] ∨ (step s ev).2.fetches = [fetchMemosParams] := by
  cases ev <;> simp only [step]
  · exact runFetchEffect_fetches _ _
  · exact runFetchEffect_fetches _ _
  · split
    · left; rfl
    · exact runFetchEffect_fetches _ _

theorem runFetchEffect_no_fetch_of_fetched (depsChanged : Bool) (s : GState)
    (h : s.hasFetchedMemos = true) :
    runFetchEffect depsChanged s = (s, []) := by
  unfold runFetchEffect
  split
  · split
    · next hc => rw [h] at hc; exact absurd hc.2 (by simp)
    · rfl
  · rfl

theorem step_preserves_fetched {s : GState} (ev : PaletteEvent)
    (h : s.hasFetchedMemos = true) :
    (step s ev).1.hasFetchedMemos = true ∧ (step s ev).2.fetches = [] := by
  cases s with
  | mk o hf p mm =>
    replace h : hf = true := h
    subst h
    cases ev <;> simp [step, runFetchEffect, noEffects]
    split <;> simp

theorem runFrom_no_fetch_of_fetched {s : GState} (evs : List PaletteEvent)
    (h : s.hasFetchedMemos = true) : (runFrom s evs).2.fetches = [] := by
  induction evs generalizing s with
  | nil => rfl
  | cons ev rest ih =>
    have hs := step_preserves_fetched (s := s) ev h
    simp only [runFrom, hs.2, List.nil_append]
    exact ih hs.1

theorem runFrom_fetches_params {s : GState} {evs : List PaletteEvent}
    {p : FetchParams} (h : p ∈ (runFrom s evs).2.fetches) : p = fetchMemosParams := by
  induction evs generalizing s with
  | nil => simp [runFrom, noEffects] at h
  | cons ev rest ih =>
    simp only [runFrom, List.mem_append] at h
    rcases h with h | h
    · rcases step_fetches s ev with he | he <;> rw [he] at h
      · simp at h
      · simpa using h
    · exact ih h

theorem step_select_close (s : GState) (r : SelectResult)
    (h : r.setOpenCalls = [false]) :
    step s (PaletteEvent.select r) =
      ({ s with isOpen := false }, ⟨[], r.navigations, r.filters⟩) := by
  cases s with
  | mk o hf p m =>
    cases o <;> simp [step, h, applySetOpen, runFetchEffect]

/-! The claims. -/

/-- C2: for every visibility state of the overlay, pressing the letter k or K
together with the meta or control modifier toggles the open flag to its
negation; pressing Escape sets the open flag to false (closing the overlay
when open and a no-op when closed); and no other key changes the open flag
through this handler. -/
theorem C2_keyboard_shortcuts (key : String) (metaKey ctrlKey openPrev : Bool) :
    (((key = "k" ∨ key = "K") ∧ (metaKey = true ∨ ctrlKey = true)) →
      handleKeyDown key metaKey ctrlKey openPrev = !openPrev)
    ∧ (key = "Escape" → handleKeyDown key metaKey ctrlKey openPrev = false)
    ∧ (¬((key = "k" ∨ key = "K") ∧ (metaKey = true ∨ ctrlKey = true)) → key ≠ "Escape" →
      handleKeyDown key metaKey ctrlKey openPrev = openPrev) := by
  refine ⟨fun h => ?_, fun h => ?_, fun h1 h2 => ?_⟩
  · simp only [handleKeyDown, if_pos h]
  · subst h
    have hno : ¬((("Escape" : String) = "k" ∨ ("Escape" : String) = "K") ∧
        (metaKey = true ∨ ctrlKey = true)) := by
      rintro ⟨hk | hk, -⟩ <;> exact absurd hk (by decide)
    simp [handleKeyDown, hno]
  · simp [handleKeyDown, h1, h2]

/-- C3: for every recent item whose identifier ends in a non-empty trailing
path segment, selecting it results in exactly one navigation call to the
detail path `/memos/<segment>` and sets the overlay's open flag to false; no
filter is added and no fetch is issued. -/
theorem C3_memo_select (name seg : String) (s : GState)
    (h : jsPop (jsSplit name '/') = some seg) (hne : seg ≠ "") :
    handleMemoSelect name =
      { navigations := ["/memos/" ++ seg], filters := [], setOpenCalls := [false] }
    ∧ step s (PaletteEvent.select (handleMemoSelect name)) =
        ({ s with isOpen := false }, ⟨[], ["/memos/" ++ seg], []⟩) := by
  have h1 : handleMemoSelect name =
      { navigations := ["/memos/" ++ seg], filters := [], setOpenCalls := [false] } := by
    simp [handleMemoSelect, h, hne, handleNavigate]
  refine ⟨h1, ?_⟩
  rw [h1]
  exact step_select_close _ _ rfl

/-- Witness for C3 at the identifier "memos/abc123", whose trailing segment
is "abc123". -/
theorem C3_memo_select_witness :
    jsPop (jsSplit "memos/abc123" '/') = some "abc123"
    ∧ step initState (PaletteEvent.select (handleMemoSelect "memos/abc123")) =
        ({ initState with isOpen := false }, ⟨[], ["/memos/" ++ "abc123"], []⟩) :=
  ⟨by decide, (C3_memo_select "memos/abc123" "abc123" initState (by decide) (by decide)).2⟩

/-- C4: for every tag name, selecting that tag calls the filter store's add
method exactly once with a constraint of factor "tagSearch" and value equal
to the tag name, and sets the overlay's open flag to false; no navigation
call occurs and no fetch is issued. -/
theorem C4_tag_select (tag : String) (s : GState) :
    handleTagSelect tag =
      { navigations := [], filters := [⟨"tagSearch", tag⟩], setOpenCalls := [false] }
    ∧ step s (PaletteEvent.select (handleTagSelect tag)) =
        ({ s with isOpen := false }, ⟨[], [], [⟨"tagSearch", tag⟩]⟩) :=
  ⟨rfl, step_select_close _ _ rfl⟩

/-- C5: every static navigation entry (Home, Inbox, Attachments, Archived,
Settings, Explore) is rendered in the "Navigate" group with `handleNavigate`
of its configured path as its select handler, and selecting it results in
exactly one navigation call with that path, sets the open flag to false, and
issues no fetch, no filter. -/
theorem C5_static_select (r : Routes) (a : StaticAction) (h : a ∈ staticActions r)
    (s : GState) (memoItems : List Memo) (tagCount : List (String × Nat)) :
    (⟨a.id, a.label, handleNavigate a.path⟩ : PaletteItem) ∈
        ((staticActions r).map fun x => (⟨x.id, x.label, handleNavigate x.path⟩ : PaletteItem))
    ∧ PaletteNode.group "Navigate"
        ((staticActions r).map fun x => ⟨x.id, x.label, handleNavigate x.path⟩) ∈
        renderList r memoItems tagCount
    ∧ step s (PaletteEvent.select (handleNavigate a.path)) =
        ({ s with isOpen := false }, ⟨[], [a.path], []⟩) := by
  refine ⟨List.mem_map_of_mem _ h, ?_, step_select_close _ _ rfl⟩
  simp [renderList]

/-- Witness for C5 at the Home entry of a concrete route table, selected on a
fresh mount. -/
theorem C5_static_select_witness :
    (⟨"home", "Home", "/"⟩ : StaticAction) ∈ staticActions demoRoutes
    ∧ step initState (PaletteEvent.select (handleNavigate "/")) =
        ({ initState with isOpen := false }, ⟨[], ["/"], []⟩) :=
  ⟨by decide,
    (C5_static_select demoRoutes ⟨"home", "Home", "/"⟩ (by decide) initState [] []).2.2⟩

/-- C9: for every recent item whose identifier's trailing path segment is
empty (the identifier ends in "/" or is the empty string), selecting it
performs no navigation call and leaves the component state — in particular
the open flag — unchanged: the overlay stays open. -/
theorem C9_memo_select_empty_uid (name : String) (s : GState)
    (h : jsPop (jsSplit name '/') = some "") :
    handleMemoSelect name = noSelect
    ∧ step s (PaletteEvent.select (handleMemoSelect name)) = (s, noEffects) := by
  have h1 : handleMemoSelect name = noSelect := by
    simp [handleMemoSelect, h]
  refine ⟨h1, ?_⟩
  rw [h1]
  cases s with
  | mk o hf p mm =>
    cases o <;> simp [step, noSelect, applySetOpen, runFetchEffect, noEffects]

/-- Witness for C9 at the identifier "a/", selected while the overlay is
open: the overlay stays open and nothing is emitted. -/
theorem C9_memo_select_empty_uid_witness :
    jsPop (jsSplit "a/" '/') = some ""
    ∧ step ⟨true, false, 0, []⟩ (PaletteEvent.select (handleMemoSelect "a/")) =
        (⟨true, false, 0, []⟩, noEffects) :=
  ⟨by decide, (C9_memo_select_empty_uid "a/" ⟨true, false, 0, []⟩ (by decide)).2⟩

/-- C1 counterexample: within a single mount, the keydown sequence Cmd-K,
Escape, Cmd-K — closing and reopening before the in-flight fetch settles —
issues two fetch requests, refuting the claim that at most one recent-items
fetch request is ever issued for every sequence of open/close events. -/
theorem C1_counterexample :
    (run [PaletteEvent.keydown "k" true false, PaletteEvent.keydown "Escape" false false,
      PaletteEvent.keydown "k" true false]).2.fetches = [fetchMemosParams, fetchMemosParams]
    ∧ ¬((run [PaletteEvent.keydown "k" true false, PaletteEvent.keydown "Escape" false false,
      PaletteEvent.keydown "k" true false]).2.fetches.length ≤ 1) := by
  decide

/-- C1 (amended): every fetch the palette ever issues carries exactly the
parameters parent = "" (workspace root), state = NORMAL, orderBy =
"display_time desc", pageSize = 20; a closed-to-open shortcut transition
while the has-fetched flag is still unset issues exactly one such fetch; once
the flag is set (any fetch settled), no event sequence ever issues another
fetch; and the canonical open, settle, close, reopen sequence issues exactly
one fetch in total.  The original claim's "at most one fetch ever" fails only
when the palette is closed and reopened before the in-flight fetch settles. -/
theorem C1_fetch_discipline :
    (∀ (s : GState) (evs : List PaletteEvent) (p : FetchParams),
      p ∈ (runFrom s evs).2.fetches → p = fetchMemosParams)
    ∧ (∀ (s : GState) (key : String) (metaKey ctrlKey : Bool),
        s.isOpen = false → s.hasFetchedMemos = false →
        (key = "k" ∨ key = "K") → (metaKey = true ∨ ctrlKey = true) →
        (step s (PaletteEvent.keydown key metaKey ctrlKey)).2.fetches = [fetchMemosParams])
    ∧ (∀ (s : GState) (evs : List PaletteEvent),
        s.hasFetchedMemos = true → (runFrom s evs).2.fetches = [])
    ∧ (run [PaletteEvent.keydown "k" true false, PaletteEvent.settle (some []),
        PaletteEvent.keydown "Escape" false false,
        PaletteEvent.keydown "k" true false]).2.fetches = [fetchMemosParams] := by
  refine ⟨fun s evs p h => runFrom_fetches_params h, ?_,
    fun s evs h => runFrom_no_fetch_of_fetched evs h, by decide⟩
  intro s key m c ho hf hk hmc
  cases s with
  | mk o hfm pend mm =>
    replace ho : o = false := ho
    replace hf : hfm = false := hf
    subst ho
    subst hf
    have hcond : (key = "k" ∨ key = "K") ∧ (m = true ∨ c = true) := ⟨hk, hmc⟩
    have htoggle : handleKeyDown key m c false = true := by
      simp only [handleKeyDown, if_pos hcond]
      rfl
    simp [step, htoggle, runFetchEffect]

/-- C8: for every outcome of the recent-items fetch — fulfilled or rejected —
the finally continuation sets the has-fetched flag to true, the settling
itself emits no fetch, navigation, or filter effect, no further fetch is ever
issued afterwards within the same mount (so a failed fetch is never retried
on subsequent opens), and a rejected fetch leaves the memo snapshot
unchanged, so the "Recent Memos" group simply stays empty. -/
theorem C8_fetch_settle (s : GState) (result : Option (List Memo))
    (evs : List PaletteEvent) (h : 0 < s.pending) :
    (step s (PaletteEvent.settle result)).1.hasFetchedMemos = true
    ∧ (step s (PaletteEvent.settle result)).2 = noEffects
    ∧ (runFrom (step s (PaletteEvent.settle result)).1 evs).2.fetches = []
    ∧ (result = none → (step s (PaletteEvent.settle result)).1.memos = s.memos) := by
  have hp : ¬(s.pending = 0) := Nat.pos_iff_ne_zero.mp h
  have hstep : step s (PaletteEvent.settle result) =
      ({ s with pending := s.pending - 1, hasFetchedMemos := true,
                memos := (match result with | some l => l | none => s.memos) },
        noEffects) := by
    simp only [step, if_neg hp]
    rw [runFetchEffect_no_fetch_of_fetched _ _ rfl]
    rfl
  rw [hstep]
  refine ⟨rfl, rfl, runFrom_no_fetch_of_fetched evs rfl, fun hres => ?_⟩
  subst hres
  rfl

/-- Witness for C8: a rejected fetch on an open palette with one in-flight
request sets the flag, emits nothing, enables no retry on close-and-reopen,
and leaves the memo snapshot empty. -/
theorem C8_fetch_settle_witness :
    (step ⟨true, false, 1, []⟩ (PaletteEvent.settle none)).1.hasFetchedMemos = true
    ∧ (step ⟨true, false, 1, []⟩ (PaletteEvent.settle none)).2 = noEffects
    ∧ (runFrom (step ⟨true, false, 1, []⟩ (PaletteEvent.settle none)).1
        [PaletteEvent.keydown "Escape" false false,
         PaletteEvent.keydown "k" true false]).2.fetches = []
    ∧ ((none : Option (List Memo)) = none →
        (step ⟨true, false, 1, []⟩ (PaletteEvent.settle none)).1.memos =
          (⟨true, false, 1, []⟩ : GState).memos) :=
  C8_fetch_settle ⟨true, false, 1, []⟩ none
    [PaletteEvent.keydown "Escape" false false, PaletteEvent.keydown "k" true false]
    (by decide)

/-- C6: for every tag-count mapping held by the store, the rendered tag list
is the lexicographically sorted sequence of the mapping's keys, independent
of the store's iteration order; in particular a store with iteration order
{"b": 1, "a": 2} renders the tags as ["a", "b"]. -/
theorem C6_tags_sorted (tagCount tagCount2 : List (String × Nat)) (r : Routes)
    (memoItems : List Memo) :
    List.Sorted jsStringLe (tagItems tagCount)
    ∧ List.Perm (tagItems tagCount) (tagCount.map Prod.fst)
    ∧ (List.Perm (tagCount.map Prod.fst) (tagCount2.map Prod.fst) →
        tagItems tagCount = tagItems tagCount2)
    ∧ tagItems [("b", 1), ("a", 2)] = ["a", "b"]
    ∧ PaletteNode.group "Tags"
        [⟨"a", "#" ++ "a", handleTagSelect "a"⟩, ⟨"b", "#" ++ "b", handleTagSelect "b"⟩] ∈
        renderList r memoItems [("b", 1), ("a", 2)] := by
  refine ⟨List.sorted_insertionSort jsStringLe _, List.perm_insertionSort jsStringLe _,
    fun hp => ?_, by decide, ?_⟩
  · exact List.eq_of_perm_of_sorted
      (((List.perm_insertionSort _ _).trans hp).trans (List.perm_insertionSort _ _).symm)
      (List.sorted_insertionSort _ _) (List.sorted_insertionSort _ _)
  · have ht : tagItems [("b", 1), ("a", 2)] = ["a", "b"] := by decide
    simp [renderList, ht]

/-- C7: whenever the recent-items snapshot list is empty, the "Recent Memos"
group is entirely absent from the render output (not rendered as an empty
group); symmetrically the "Tags" group is absent whenever the tag mapping is
empty, and with both empty the rendered list is just the empty-state node and
the "Navigate" group, with no separator. -/
theorem C7_empty_groups_absent (r : Routes) (tagCount : List (String × Nat))
    (memoItems : List Memo) :
    "Recent Memos" ∉ headings (renderList r [] tagCount)
    ∧ "Tags" ∉ headings (renderList r memoItems [])
    ∧ renderList r [] [] =
        [PaletteNode.empty "No results found.",
         PaletteNode.group "Navigate"
           ((staticActions r).map fun a => ⟨a.id, a.label, handleNavigate a.path⟩)] := by
  refine ⟨?_, ?_, ?_⟩
  · by_cases ht : (tagItems tagCount).length > 0 <;>
      simp [renderList, headings, ht]
  · by_cases hm : memoItems.length > 0 <;>
      simp [renderList, headings, hm, tagItems]
  · simp [renderList, tagItems]

/-- C10: for every recent item, the rendered label is the first 50 characters
of the item's content; when the content is the empty string the label falls
back to the item's full identifier name. -/
theorem C10_memo_label (m : Memo) (r : Routes) (tagCount : List (String × Nat)) :
    (m.content = "" → memoLabel m = m.name)
    ∧ (m.content ≠ "" → (memoLabel m).data = m.content.data.take 50)
    ∧ PaletteNode.group "Recent Memos"
        [⟨m.name, memoLabel m, handleMemoSelect m.name⟩] ∈ renderList r [m] tagCount := by
  refine ⟨fun h => ?_, fun h => ?_, ?_⟩
  · have h2 : jsSliceTo "" 50 = "" := by decide
    simp [memoLabel, h, h2]
  · cases hc : m.content with
    | mk cl =>
      cases cl with
      | nil => exact absurd hc h
      | cons c cs =>
        have hne : jsSliceTo m.content 50 ≠ "" := by
          rw [hc]
          intro hx
          have hemp : ("" : String) = String.mk [] := rfl
          rw [hemp] at hx
          have hd := congrArg String.data hx
          simp [jsSliceTo] at hd
        simp only [memoLabel, if_neg hne]
        rw [hc]
        simp [jsSliceTo]
  · simp [renderList]

end CommandPalette
